import Mathlib

/-!
Verification of the LMX2594 power-up sequencer (lmx2594ctl).

The development shallowly embeds the two source files:

* `src/lmx2594.rs` — the register table `REG_MAP`, the control constants,
  the `reg` encoder (big-endian low three octets of a `u32`) and
  `write_reg` (a framed SPI write).
* `src/main.rs` — the power-up sequence in `main`: quiesce the select
  line, power the chip, assert and deassert reset, program the table in
  descending address order, and retrigger calibration, with a 10 ms
  settle delay after every bus operation.

Machine integers (`u32`, `u8`) are modelled as `Nat` with explicit
`% 256` / `% 2 ^ 24` where the source truncates.  Side effects are
modelled as an explicit event trace; the fallible serial transport of
the design is a fault oracle indexed by the ordinal of the framed write,
and a fault aborts the run carrying the state reached so far
(`Except`), mirroring the source's unwrap-and-abort behaviour.
-/

set_option maxRecDepth 40000

namespace Lmx2594Ctl

/-- The register table of `src/lmx2594.rs` (`REG_MAP`), 113 entries,
index = target register address. -/
def REG_MAP : List Nat := [
  0x00241c, 0x010808, 0x020500, 0x030642, 0x040a43, 0x0500c8, 0x06c802,
  0x0740b2, 0x082000, 0x090604, 0x0a10d8, 0x0b0018, 0x0c5001, 0x0d4000,
  0x0e1e70, 0x0f064f, 0x100080, 0x110118, 0x120064, 0x1327b7, 0x14d848,
  0x150401, 0x160001, 0x17007c, 0x18071a, 0x190c2b, 0x1a0db0, 0x1b0002,
  0x1c0488, 0x1d318c, 0x1e318c, 0x1f43ec, 0x200393, 0x211e21, 0x220000,
  0x230004, 0x240800, 0x250304, 0x260000, 0x270001, 0x280000, 0x290000,
  0x2a0000, 0x2b0000, 0x2c1fa3, 0x2dc0df, 0x2e07fc, 0x2f0300, 0x300300,
  0x314180, 0x320000, 0x330080, 0x340820, 0x350000, 0x360000, 0x370000,
  0x380000, 0x390020, 0x3a8001, 0x3b0001, 0x3c0000, 0x3d00a8, 0x3e0322,
  0x3f0000, 0x401388, 0x410000, 0x4201f4, 0x430000, 0x4403e8, 0x450000,
  0x46c350, 0x470081, 0x480001, 0x49003f, 0x4a0000, 0x4b0b80, 0x4c000c,
  0x4d0000, 0x4e00c3, 0x4f0000, 0x500000, 0x510000, 0x520000, 0x530000,
  0x540000, 0x550000, 0x560000, 0x570000, 0x580000, 0x590000, 0x5a0000,
  0x5b0000, 0x5c0000, 0x5d0000, 0x5e0000, 0x5f0000, 0x600000, 0x610888,
  0x620000, 0x630000, 0x640000, 0x650011, 0x660000, 0x670000, 0x680000,
  0x690021, 0x6a0000, 0x6b0000, 0x6c0000, 0x6d0000, 0x6e0000, 0x6f0000,
  0x700000]

/-- `FCAL_EN_OFF` of `src/lmx2594.rs`: the calibration-disable word. -/
def FCAL_EN_OFF : Nat := 0x002414

/-- `FCAL_EN_ON = REG_MAP[0]` of `src/lmx2594.rs`: the
calibration-enable word. -/
def FCAL_EN_ON : Nat := REG_MAP.getD 0 0

/-- `RESET_ON` of `src/lmx2594.rs`: the reset-assert word. -/
def RESET_ON : Nat := 0x00241e

/-- `RESET_OFF = REG_MAP[0]` of `src/lmx2594.rs`: the reset-deassert
word. -/
def RESET_OFF : Nat := REG_MAP.getD 0 0

/-- `u32::to_be_bytes`: the four big-endian octets of a 32-bit word
(most significant first). -/
def to_be_bytes (w : Nat) : Nat × Nat × Nat × Nat :=
  (w / 2 ^ 24 % 256, w / 2 ^ 16 % 256, w / 2 ^ 8 % 256, w % 256)

/-- `Lmx2594::reg` for `u32`: destructure `to_be_bytes`, discard the
most significant octet, keep the low three. -/
def reg (w : Nat) : List Nat :=
  match to_be_bytes w with
  | (_, u1, u2, u3) => [u1, u2, u3]

/-- The 7-bit address field of a register word (bits 16..22). -/
def addrOf (w : Nat) : Nat := w / 2 ^ 16 % 2 ^ 7

/-- The read/write bit of a register word (bit 23; 0 = write). -/
def rwBit (w : Nat) : Nat := w / 2 ^ 23 % 2

/-- Reassemble three big-endian octets into a 24-bit value. -/
def decodeBE (b : List Nat) : Nat :=
  match b with
  | [b0, b1, b2] => b0 * 2 ^ 16 + b1 * 2 ^ 8 + b2
  | _ => 0

/-- Observable events of the power-up run, in program order:
select line driven active (`spi_cs.set_low`) or idle
(`spi_cs.set_high`), chip enable asserted (`ce_pin.set_high`),
a burst of octets on the serial bus (`spi.write`), a blocking delay
(`delay.delay_ms`), and the status LED. -/
inductive Event where
  | csLow : Event
  | csHigh : Event
  | ceOn : Event
  | spiW : List Nat → Event
  | delay : Nat → Event
  | ledOn : Event
  | ledOff : Event
deriving Repr, DecidableEq

/-- Caller-visible state threaded through the run: the event trace so
far, the caller-supplied 3-byte buffer `buf`, and the ordinal of the
next framed write (used to index the fault oracle). -/
structure SeqState where
  trace : List Event
  buf : List Nat
  writes : Nat
deriving Repr, DecidableEq

/-- Append one event to the trace. -/
def emit (e : Event) (s : SeqState) : SeqState :=
  { s with trace := s.trace ++ [e] }

/-- A transport fault, as surfaced by the serial collaborator
(an opaque error value, modelled as a code). -/
abbrev Fault := Nat

/-- A fault oracle: for each framed-write ordinal, whether the serial
transport faults on that write and with which error. -/
abbrev Oracle := Nat → Option Fault

/-- The always-successful transport (the source's `Infallible` SPI). -/
def noFault : Oracle := fun _ => none

/-- `spi.write(buf)`: transmit the octets, or abort with the
transport's fault, carrying the state reached so far. -/
def spiTransmit (fault : Oracle) (bytes : List Nat) (s : SeqState) :
    Except (Fault × SeqState) SeqState :=
  match fault s.writes with
  | some e => .error (e, s)
  | none => .ok (emit (.spiW bytes) { s with writes := s.writes + 1 })

/-- `Lmx2594::write_reg` for `u32`: drive select active, store the
encoding in the caller's buffer, transmit the buffer, drive select
idle.  A transport fault aborts with select still active, as the
source's unwrap would. -/
def write_reg (fault : Oracle) (w : Nat) (s : SeqState) :
    Except (Fault × SeqState) SeqState :=
  let s1 := emit .csLow s
  let s2 := { s1 with buf := reg w }
  match spiTransmit fault s2.buf s2 with
  | .error es => .error es
  | .ok s3 => .ok (emit .csHigh s3)

/-- The Programming-phase loop of `main`
(`for r in REG_MAP.iter().rev() { r.write_reg(..); delay.delay_ms(10) }`),
applied to an arbitrary word list: one framed write then a 10 ms delay
per entry. -/
def programTable (fault : Oracle) : List Nat → SeqState →
    Except (Fault × SeqState) SeqState
  | [], s => .ok s
  | w :: ws, s =>
    match write_reg fault w s with
    | .error es => .error es
    | .ok s1 => programTable fault ws (emit (.delay 10) s1)

/-- The power-up sequence of `main` (`src/main.rs`, lines 156-186):
LED on; select idle and settle; chip enable and settle; reset assert,
reset deassert, the table in reverse, each write followed by a 10 ms
delay; one extra settle delay; calibration enable then disable;
LED off. -/
def mainSeq (fault : Oracle) : Except (Fault × SeqState) SeqState := do
  let s0 : SeqState := ⟨[], [0, 0, 0], 0⟩
  let s := emit .ledOn s0
  let s := emit (.delay 10) (emit .csHigh s)
  let s := emit (.delay 10) (emit .ceOn s)
  let s ← write_reg fault RESET_ON s
  let s := emit (.delay 10) s
  let s ← write_reg fault RESET_OFF s
  let s := emit (.delay 10) s
  let s ← programTable fault REG_MAP.reverse s
  let s := emit (.delay 10) s
  let s ← write_reg fault FCAL_EN_ON s
  let s := emit (.delay 10) s
  let s ← write_reg fault FCAL_EN_OFF s
  let s := emit (.delay 10) s
  pure (emit .ledOff s)

/-- The event trace of a run (on fault, the trace reached at abort). -/
def traceOf (r : Except (Fault × SeqState) SeqState) : List Event :=
  match r with
  | .ok s => s.trace
  | .error (_, s) => s.trace

/-- The trace of the complete, fault-free power-up run. -/
def mainTrace : List Event := traceOf (mainSeq noFault)

/-- The octet payloads of the serial-bus writes in a trace,
in order. -/
def writtenWords : List Event → List (List Nat)
  | [] => []
  | .spiW b :: t => b :: writtenWords t
  | _ :: t => writtenWords t

/-- The register address carried by an encoded 3-octet payload:
low 7 bits of the first (most significant) octet. -/
def addrOfBytes (b : List Nat) : Nat := b.headD 0 % 2 ^ 7

/-- Addresses of the serial-bus writes in a trace, in order. -/
def writtenAddrs (t : List Event) : List Nat :=
  (writtenWords t).map addrOfBytes

/-- The full list of register words a fault-free run writes,
in order. -/
def fullWords : List Nat :=
  [RESET_ON, RESET_OFF] ++ REG_MAP.reverse ++ [FCAL_EN_ON, FCAL_EN_OFF]

/-- Every register word the program ever encodes: the table and the
four control constants. -/
def allWords : List Nat :=
  REG_MAP ++ [FCAL_EN_OFF, FCAL_EN_ON, RESET_ON, RESET_OFF]

/-- The trace block of one framed write of word `w`. -/
def writeBlock (w : Nat) : List Event :=
  [.csLow, .spiW (reg w), .csHigh]

/-- The trace block of one Programming-phase iteration:
a framed write then the 10 ms settle delay. -/
def progBlock (w : Nat) : List Event := writeBlock w ++ [.delay 10]

/-- The five events preceding the first framed write: LED on, select
line to idle, settle delay, chip enable, settle delay. -/
def preTrace : List Event := [.ledOn, .csHigh, .delay 10, .ceOn, .delay 10]

/-- Structured form of the fault-free run trace, phase by phase. -/
def mainTraceSpec : List Event :=
  preTrace ++ progBlock RESET_ON ++ progBlock RESET_OFF ++
    (REG_MAP.reverse.map progBlock).flatten ++ [.delay 10] ++
    progBlock FCAL_EN_ON ++ progBlock FCAL_EN_OFF ++ [.ledOff]

/-- The Programming-phase segment of the fault-free run trace:
13 events precede it (`preTrace` and the two reset writes with their
delays) and it spans 4 events per table entry. -/
def progPhase : List Event := (mainTrace.drop 13).take 452

/-- The buffer contents left behind by a sequence of `write_reg`
calls: the encoding of the last word written, if any. -/
def lastBuf (b : List Nat) : List Nat → List Nat
  | [] => b
  | w :: ws => lastBuf (reg w) ws

/-- `true` iff every delay in the trace happens with the select line
idle, starting from the given select level (`true` = active). -/
def delaysIdle : Bool → List Event → Bool
  | _, [] => true
  | _, .csLow :: t => delaysIdle true t
  | _, .csHigh :: t => delaysIdle false t
  | b, .delay _ :: t => !b && delaysIdle b t
  | b, _ :: t => delaysIdle b t

/-- `true` iff every serial burst in the trace is framed: immediately
preceded by select-active and immediately followed by select-idle. -/
def framed : List Event → Bool
  | .csLow :: .spiW _ :: .csHigh :: t => framed t
  | .spiW _ :: _ => false
  | _ :: t => framed t
  | [] => true

lemma write_reg_ok (fault : Oracle) (w : Nat) (s : SeqState)
    (h : fault s.writes = none) :
    write_reg fault w s = .ok ⟨s.trace ++ writeBlock w, reg w, s.writes + 1⟩ := by
  simp [write_reg, spiTransmit, h, emit, writeBlock]

lemma write_reg_err (fault : Oracle) (w : Nat) (s : SeqState) (e : Fault)
    (h : fault s.writes = some e) :
    write_reg fault w s = .error (e, ⟨s.trace ++ [.csLow], reg w, s.writes⟩) := by
  simp [write_reg, spiTransmit, h, emit]

lemma programTable_ok (fault : Oracle) :
    ∀ (ws : List Nat) (s : SeqState),
      (∀ j, j < ws.length → fault (s.writes + j) = none) →
      programTable fault ws s =
        .ok ⟨s.trace ++ (ws.map progBlock).flatten, lastBuf s.buf ws,
             s.writes + ws.length⟩ := by
  intro ws
  induction ws with
  | nil => intro s _; simp [programTable, lastBuf]
  | cons w ws ih =>
    intro s h
    have h0 : fault s.writes = none := by simpa using h 0 (by simp)
    rw [programTable, write_reg_ok fault w s h0]
    have hrest : ∀ j, j < ws.length → fault (s.writes + 1 + j) = none := by
      intro j hj
      have := h (j + 1) (by simpa using Nat.succ_lt_succ hj)
      simpa [Nat.add_assoc, Nat.add_comm 1 j] using this
    simp only [emit]
    rw [ih _ hrest]
    simp [lastBuf, progBlock, writeBlock, List.append_assoc]
    omega

lemma programTable_err (fault : Oracle) :
    ∀ (ws : List Nat) (i : Nat) (s : SeqState) (e : Fault),
      i < ws.length →
      (∀ j, j < i → fault (s.writes + j) = none) →
      fault (s.writes + i) = some e →
      programTable fault ws s =
        .error (e, ⟨s.trace ++ ((ws.take i).map progBlock).flatten ++ [.csLow],
                    reg (ws.getD i 0), s.writes + i⟩) := by
  intro ws
  induction ws with
  | nil => intro i s e hi; simp at hi
  | cons w ws ih =>
    intro i s e hi hnone hf
    cases i with
    | zero =>
      have h0 : fault s.writes = some e := by simpa using hf
      rw [programTable, write_reg_err fault w s e h0]
      simp
    | succ i =>
      have h0 : fault s.writes = none := by simpa using hnone 0 (Nat.succ_pos i)
      rw [programTable, write_reg_ok fault w s h0]
      simp only [emit]
      have hrest : ∀ j, j < i → fault (s.writes + 1 + j) = none := by
        intro j hj
        have := hnone (j + 1) (by simpa using Nat.succ_lt_succ hj)
        simpa [Nat.add_assoc, Nat.add_comm 1 j] using this
      have hf' : fault (s.writes + 1 + i) = some e := by
        simpa [Nat.add_assoc, Nat.add_comm 1 i] using hf
      rw [ih i _ e (by simpa using Nat.lt_of_succ_lt_succ hi) hrest hf']
      simp [progBlock, writeBlock, List.append_assoc]
      omega

lemma write_reg_noFault (w : Nat) (s : SeqState) :
    write_reg noFault w s = .ok ⟨s.trace ++ writeBlock w, reg w, s.writes + 1⟩ :=
  write_reg_ok noFault w s rfl

lemma programTable_noFault (ws : List Nat) (s : SeqState) :
    programTable noFault ws s =
      .ok ⟨s.trace ++ (ws.map progBlock).flatten, lastBuf s.buf ws,
           s.writes + ws.length⟩ :=
  programTable_ok noFault ws s (fun _ _ => rfl)

lemma mainTrace_eq : mainTrace = mainTraceSpec := by
  simp only [mainTrace, traceOf, mainSeq, write_reg_noFault, programTable_noFault,
    emit, Bind.bind, Except.bind, Pure.pure, Except.pure, mainTraceSpec, preTrace,
    progBlock, writeBlock, List.append_assoc, List.cons_append, List.nil_append,
    List.singleton_append]

lemma progPhase_eq : progPhase = (REG_MAP.reverse.map progBlock).flatten := by
  rw [progPhase, mainTrace_eq]; decide

lemma writtenWords_append (a b : List Event) :
    writtenWords (a ++ b) = writtenWords a ++ writtenWords b := by
  induction a with
  | nil => rfl
  | cons x t ih => cases x <;> simp [writtenWords, ih]

lemma writtenWords_prog_flatten (ws : List Nat) :
    writtenWords ((ws.map progBlock).flatten) = ws.map reg := by
  induction ws with
  | nil => rfl
  | cons w t ih =>
    simp [progBlock, writeBlock, writtenWords_append, writtenWords, ih]

lemma mainSeq_fault_at_0 (fault : Oracle) (e : Fault)
    (hf : fault 0 = some e) :
    ∃ s, mainSeq fault = .error (e, s) ∧
      writtenWords s.trace = (fullWords.take 0).map reg ∧ s.writes = 0 := by
  have hrun : mainSeq fault =
      .error (e, ⟨preTrace ++ [.csLow], reg RESET_ON, 0⟩) := by
    simp only [mainSeq, Bind.bind, Except.bind, Pure.pure, Except.pure, emit,
      List.nil_append, List.cons_append, List.append_assoc]
    rw [write_reg_err fault RESET_ON _ e hf]
    dsimp only
    simp [preTrace]
  exact ⟨_, hrun, by decide, rfl⟩

lemma mainSeq_fault_at_1 (fault : Oracle) (e : Fault)
    (h0 : fault 0 = none) (hf : fault 1 = some e) :
    ∃ s, mainSeq fault = .error (e, s) ∧
      writtenWords s.trace = (fullWords.take 1).map reg ∧ s.writes = 1 := by
  have hrun : mainSeq fault =
      .error (e, ⟨preTrace ++ writeBlock RESET_ON ++ [.delay 10, .csLow],
                  reg RESET_OFF, 1⟩) := by
    simp only [mainSeq, Bind.bind, Except.bind, Pure.pure, Except.pure, emit,
      List.nil_append, List.cons_append, List.append_assoc]
    rw [write_reg_ok fault RESET_ON _ h0]
    dsimp only
    rw [write_reg_err fault RESET_OFF _ e hf]
    dsimp only
    simp [preTrace]
  exact ⟨_, hrun, by decide, rfl⟩

lemma mainSeq_fault_in_table (fault : Oracle) (i : Nat) (e : Fault) (hi : i < 113)
    (hnone : ∀ j, j < i + 2 → fault j = none)
    (hf : fault (i + 2) = some e) :
    ∃ s, mainSeq fault = .error (e, s) ∧
      writtenWords s.trace = (fullWords.take (i + 2)).map reg ∧
      s.writes = i + 2 := by
  have h0 : fault 0 = none := hnone 0 (by omega)
  have h1 : fault 1 = none := hnone 1 (by omega)
  have hrnone : ∀ j, j < i → fault (2 + j) = none := by
    intro j hj; exact hnone (2 + j) (by omega)
  have hrf : fault (2 + i) = some e := by rwa [Nat.add_comm 2 i]
  have hilen : i < REG_MAP.reverse.length := by
    simpa using hi
  have hrun : mainSeq fault =
      .error (e, ⟨preTrace ++ writeBlock RESET_ON ++ [.delay 10] ++
                    writeBlock RESET_OFF ++ [.delay 10] ++
                    ((REG_MAP.reverse.take i).map progBlock).flatten ++ [.csLow],
                  reg (REG_MAP.reverse.getD i 0), 2 + i⟩) := by
    simp only [mainSeq, Bind.bind, Except.bind, Pure.pure, Except.pure, emit,
      List.nil_append, List.cons_append, List.append_assoc]
    rw [write_reg_ok fault RESET_ON _ h0]
    dsimp only
    rw [write_reg_ok fault RESET_OFF _ h1]
    dsimp only
    rw [programTable_err fault REG_MAP.reverse i _ e hilen hrnone hrf]
    dsimp only
    simp [preTrace, writeBlock]
  refine ⟨_, hrun, ?_, by dsimp only; omega⟩
  have htake : (fullWords.take (i + 2)).map reg =
      [reg RESET_ON, reg RESET_OFF] ++ (REG_MAP.reverse.take i).map reg := by
    have hfw : fullWords = RESET_ON :: RESET_OFF ::
        (REG_MAP.reverse ++ [FCAL_EN_ON, FCAL_EN_OFF]) := by simp [fullWords]
    rw [hfw]
    rw [List.take_succ_cons, List.take_succ_cons,
        List.take_append_of_le_length (by omega)]
    simp
  rw [htake]
  simp only [List.append_eq, writtenWords_append, writtenWords_prog_flatten,
    writtenWords, preTrace, writeBlock, List.append_assoc, List.cons_append,
    List.nil_append, List.append_nil]

lemma mainSeq_fault_at_calib_on (fault : Oracle) (e : Fault)
    (hnone : ∀ j, j < 115 → fault j = none)
    (hf : fault 115 = some e) :
    ∃ s, mainSeq fault = .error (e, s) ∧
      writtenWords s.trace = (fullWords.take 115).map reg ∧ s.writes = 115 := by
  have h0 : fault 0 = none := hnone 0 (by omega)
  have h1 : fault 1 = none := hnone 1 (by omega)
  have hforall : ∀ j, j < REG_MAP.reverse.length → fault (2 + j) = none := by
    intro j hj
    have hj' : j < 113 := by simpa using hj
    exact hnone (2 + j) (by omega)
  have hrun : mainSeq fault =
      .error (e, ⟨preTrace ++ writeBlock RESET_ON ++ [.delay 10] ++
                    writeBlock RESET_OFF ++ [.delay 10] ++
                    (REG_MAP.reverse.map progBlock).flatten ++ [.delay 10, .csLow],
                  reg FCAL_EN_ON, 2 + REG_MAP.reverse.length⟩) := by
    simp only [mainSeq, Bind.bind, Except.bind, Pure.pure, Except.pure, emit,
      List.nil_append, List.cons_append, List.append_assoc]
    rw [write_reg_ok fault RESET_ON _ h0]
    dsimp only
    rw [write_reg_ok fault RESET_OFF _ h1]
    dsimp only
    rw [programTable_ok fault REG_MAP.reverse _ hforall]
    dsimp only
    rw [write_reg_err fault FCAL_EN_ON _ e hf]
    dsimp only
    simp [preTrace, writeBlock]
  refine ⟨_, hrun, ?_, by decide⟩
  simp only [List.append_eq, writtenWords_append, writtenWords_prog_flatten,
    writtenWords, preTrace, writeBlock, List.append_assoc, List.cons_append,
    List.nil_append, List.append_nil]
  decide

lemma mainSeq_fault_at_calib_off (fault : Oracle) (e : Fault)
    (hnone : ∀ j, j < 116 → fault j = none)
    (hf : fault 116 = some e) :
    ∃ s, mainSeq fault = .error (e, s) ∧
      writtenWords s.trace = (fullWords.take 116).map reg ∧ s.writes = 116 := by
  have h0 : fault 0 = none := hnone 0 (by omega)
  have h1 : fault 1 = none := hnone 1 (by omega)
  have h115 : fault 115 = none := hnone 115 (by omega)
  have hforall : ∀ j, j < REG_MAP.reverse.length → fault (2 + j) = none := by
    intro j hj
    have hj' : j < 113 := by simpa using hj
    exact hnone (2 + j) (by omega)
  have hrun : mainSeq fault =
      .error (e, ⟨preTrace ++ writeBlock RESET_ON ++ [.delay 10] ++
                    writeBlock RESET_OFF ++ [.delay 10] ++
                    (REG_MAP.reverse.map progBlock).flatten ++ [.delay 10] ++
                    writeBlock FCAL_EN_ON ++ [.delay 10, .csLow],
                  reg FCAL_EN_OFF, 2 + REG_MAP.reverse.length + 1⟩) := by
    simp only [mainSeq, Bind.bind, Except.bind, Pure.pure, Except.pure, emit,
      List.nil_append, List.cons_append, List.append_assoc]
    rw [write_reg_ok fault RESET_ON _ h0]
    dsimp only
    rw [write_reg_ok fault RESET_OFF _ h1]
    dsimp only
    rw [programTable_ok fault REG_MAP.reverse _ hforall]
    dsimp only
    rw [write_reg_ok fault FCAL_EN_ON _ h115]
    dsimp only
    rw [write_reg_err fault FCAL_EN_OFF _ e hf]
    dsimp only
    simp [preTrace, writeBlock]
  refine ⟨_, hrun, ?_, by decide⟩
  simp only [List.append_eq, writtenWords_append, writtenWords_prog_flatten,
    writtenWords, preTrace, writeBlock, List.append_assoc, List.cons_append,
    List.nil_append, List.append_nil]
  decide

/-- C1: during the Programming phase the sequencer issues exactly one
framed write per `REG_MAP` entry, each followed by a 10 ms settle
delay; the programmed addresses are 112 down to 0, strictly
decreasing, covering every index in [0, 113) exactly once. -/
theorem c1_programming_descending_order :
    progPhase = (REG_MAP.reverse.map progBlock).flatten ∧
    writtenAddrs progPhase = (List.range 113).reverse ∧
    List.Pairwise (fun a b => a > b) (writtenAddrs progPhase) ∧
    ((List.range 113).all fun i => (writtenAddrs progPhase).count i == 1) = true ∧
    mainTrace.take 13 ++ progPhase ++ mainTrace.drop 465 = mainTrace :=
  ⟨progPhase_eq,
   by rw [progPhase_eq]; decide,
   by rw [progPhase_eq]; decide,
   by rw [progPhase_eq]; decide,
   by rw [progPhase_eq, mainTrace_eq]; decide⟩

/-- C2: a complete power-up run issues exactly `REG_MAP.length + 4
= 117` framed writes, in the order reset-assert, reset-deassert, the
113 table entries, calibration-enable, calibration-disable; after the
last (address-0) table write and its per-write delay one additional
10 ms settle delay precedes the calibration-enable write. -/
theorem c2_write_count_and_order :
    writtenWords mainTrace = fullWords.map reg ∧
    (writtenWords mainTrace).length = REG_MAP.length + 4 ∧
    REG_MAP.length + 4 = 117 ∧
    mainTrace.drop 461 =
      [.csLow, .spiW (reg (REG_MAP.getD 0 0)), .csHigh, .delay 10, .delay 10] ++
        writeBlock FCAL_EN_ON ++ [.delay 10] ++ writeBlock FCAL_EN_OFF ++
        [.delay 10, .ledOff] :=
  ⟨by rw [mainTrace_eq]; decide,
   by rw [mainTrace_eq]; decide,
   by decide,
   by rw [mainTrace_eq]; decide⟩

/-- C3: if the serial transport faults with error `e` on the framed
write of ordinal `k` (0-based, earlier writes fault-free), the run
aborts: the result is that very error, the trace holds exactly the
first `k` framed writes (the prefix of the full write sequence), and
no later write occurs. -/
theorem c3_fault_aborts_run (fault : Oracle) (k : Nat) (e : Fault)
    (hk : k < 117) (hf : fault k = some e)
    (hnone : ∀ j, j < k → fault j = none) :
    ∃ s, mainSeq fault = .error (e, s) ∧
      writtenWords s.trace = (fullWords.take k).map reg ∧ s.writes = k := by
  rcases Nat.lt_or_ge k 2 with h2 | h2
  · interval_cases k
    · exact mainSeq_fault_at_0 fault e hf
    · exact mainSeq_fault_at_1 fault e (hnone 0 (by omega)) hf
  · rcases Nat.lt_or_ge k 115 with h115 | h115
    · obtain ⟨i, rfl⟩ : ∃ i, k = i + 2 := ⟨k - 2, by omega⟩
      exact mainSeq_fault_in_table fault i e (by omega) hnone hf
    · interval_cases k
      · exact mainSeq_fault_at_calib_on fault e hnone hf
      · exact mainSeq_fault_at_calib_off fault e hnone hf

/-- Witness for C3: a transport that faults with error 7 on the
framed write of ordinal 5 aborts the run after exactly 5 writes. -/
theorem c3_fault_aborts_run_witness :
    ∃ s, mainSeq (fun n => if n = 5 then some 7 else none) = .error (7, s) ∧
      writtenWords s.trace = (fullWords.take 5).map reg ∧ s.writes = 5 :=
  c3_fault_aborts_run (fun n => if n = 5 then some 7 else none) 5 7
    (by decide) (by decide) (by decide)

/-- C4: for every index `i` in [0, 113), the 7-bit address field of
`REG_MAP[i]` equals `i` and the read/write bit is 0. -/
theorem c4_table_address_invariant (i : Nat) (hi : i < 113) :
    addrOf (REG_MAP.getD i 0) = i ∧ rwBit (REG_MAP.getD i 0) = 0 := by
  revert i
  decide

/-- Witness for C4 at index 7. -/
theorem c4_table_address_invariant_witness :
    addrOf (REG_MAP.getD 7 0) = 7 ∧ rwBit (REG_MAP.getD 7 0) = 0 :=
  c4_table_address_invariant 7 (by decide)

/-- C5: `reg` returns the big-endian byte representation of its word
truncated to the low 3 octets (bits above 23 discarded) for every
word; and every value in `REG_MAP` and the four control constants
fits in 24 bits, so reassembling the 3 octets big-endian reproduces
the value exactly. -/
theorem c5_encode_roundtrip :
    (∀ w : Nat, reg w = [w / 2 ^ 16 % 256, w / 2 ^ 8 % 256, w % 256]) ∧
    allWords.all (fun v => decide (v < 2 ^ 24) && (decodeBE (reg v) == v)) =
      true :=
  ⟨fun _ => rfl, by decide⟩

/-- C6: reset-deassert is bit-identical to calibration-enable, both
equal to `REG_MAP[0] = 0x00241c`; calibration-disable is `0x002414`,
differing from calibration-enable in exactly one bit (bit 3, the
calibration-enable bit, set in the enable word and clear in the
disable word). -/
theorem c6_control_constant_invariants :
    RESET_OFF = FCAL_EN_ON ∧ FCAL_EN_ON = REG_MAP.getD 0 0 ∧
    REG_MAP.getD 0 0 = 0x00241c ∧ FCAL_EN_OFF = 0x002414 ∧
    Nat.xor FCAL_EN_OFF FCAL_EN_ON = 2 ^ 3 ∧
    FCAL_EN_ON / 2 ^ 3 % 2 = 1 ∧ FCAL_EN_OFF / 2 ^ 3 % 2 = 0 := by
  decide

/-- C7: every serial burst in the full run is framed — select driven
active, the burst, select back to idle — every burst is the 3-octet
encoding of a register word of the run, and every delay happens with
the select line idle (no transaction is open across a delay
boundary). -/
theorem c7_framed_writes_and_idle_delays :
    framed mainTrace = true ∧ delaysIdle false mainTrace = true ∧
    (writtenWords mainTrace).all (fun b => b.length == 3) = true ∧
    writtenWords mainTrace = fullWords.map reg :=
  ⟨by rw [mainTrace_eq]; decide,
   by rw [mainTrace_eq]; decide,
   by rw [mainTrace_eq]; decide,
   by rw [mainTrace_eq]; decide⟩

/-- C8: the reset-deassert write immediately follows the reset-assert
write as writes 0 and 1 (before any table write); the reset bit is
bit 1 (the single bit where reset-assert and reset-deassert differ);
every later register-0 write has the reset bit clear; and the final
write is the steady-state `0x002414`, reset bit clear. -/
theorem c8_reset_never_reasserted :
    (writtenWords mainTrace).take 2 = [reg RESET_ON, reg RESET_OFF] ∧
    Nat.xor RESET_ON RESET_OFF = 2 ∧ RESET_ON / 2 % 2 = 1 ∧
    ((writtenWords mainTrace).drop 2).all
      (fun b => (addrOfBytes b != 0) || (b.getD 2 0 / 2 % 2 == 0)) = true ∧
    (writtenWords mainTrace).getLastD [] = reg FCAL_EN_OFF ∧
    FCAL_EN_OFF = 0x002414 ∧ FCAL_EN_OFF / 2 % 2 = 0 :=
  ⟨by rw [mainTrace_eq]; decide,
   by decide, by decide,
   by rw [mainTrace_eq]; decide,
   by rw [mainTrace_eq]; decide,
   by decide, by decide⟩

/-- C9: the run begins by driving the select line to idle, waiting
10 ms, asserting chip enable, and waiting 10 ms again, in that order;
no framed write occurs before both steps have completed. -/
theorem c9_power_up_preamble :
    mainTrace.take 5 = [.ledOn, .csHigh, .delay 10, .ceOn, .delay 10] ∧
    writtenWords (mainTrace.take 5) = [] :=
  ⟨by rw [mainTrace_eq]; decide,
   by rw [mainTrace_eq]; decide⟩

/-- C10: any call to `write_reg` on word `w` leaves the caller's
buffer equal to `reg w` regardless of its prior contents; on success
the only other caller-visible effects are the framed transmission of
those 3 octets (select active, burst, select idle) and the write
counter advancing. -/
theorem c10_write_reg_frame_effect (fault : Oracle) (w : Nat) (s : SeqState) :
    (∃ s', write_reg fault w s = .ok s' ∧ s'.buf = reg w ∧
       s'.trace = s.trace ++ writeBlock w ∧ s'.writes = s.writes + 1) ∨
    (∃ e s', write_reg fault w s = .error (e, s') ∧ s'.buf = reg w) := by
  cases hfw : fault s.writes with
  | none => exact Or.inl ⟨_, write_reg_ok fault w s hfw, rfl, rfl, rfl⟩
  | some e => exact Or.inr ⟨e, _, write_reg_err fault w s e hfw, rfl⟩

end Lmx2594Ctl
